import Mathlib

/-!
Verification of the engine / commitment / MSM layer of a folding-based
proving system. Definitions are shallow embeddings of the Rust sources in
`src/provider/mod.rs`, `src/traits/snark.rs`, `src/supernova/error.rs`,
and `src/bellpepper/solver.rs`; parts of the repository that those files
reference but that are not included (the MSM kernel, the parallel
`from_label`, the SuperNova `setup`, the digest implementation, the base
error type) are modelled from the specification, as marked on each
definition.
-/

/- ------------------------------------------------------------------ -/
/- Multi-scalar multiplication (section 4.1 of the spec)              -/
/- ------------------------------------------------------------------ -/

/-- The naive accumulate-and-add loop from the test `test_msm_with` in
`src/provider/mod.rs`: fold `acc + s_i • p_i` over the zipped
scalar/point vectors, starting from the group identity. Scalars are the
natural-number representatives of field elements; points live in an
additive commutative monoid. -/
def naiveAccumulate {G : Type} [AddCommMonoid G]
    (scalars : List Nat) (points : List G) : G :=
  (scalars.zip points).foldl (fun acc sp => acc + sp.1 • sp.2) 0

/-- The `i`-th base-`2 ^ c` digit of a scalar: the window of `c` bits
starting at bit `c * i`. -/
def windowDigit (c i s : Nat) : Nat :=
  s / 2 ^ (c * i) % 2 ^ c

/-- Modelled from the spec: the bucket accumulation step of the windowed
(Pippenger) method implemented by `cpu_best_msm` in
`src/provider/util/msm.rs`, a file not included in the sources. For
window `i`, bucket `b` holds the sum of all points whose scalar has
`i`-th digit `b`. -/
def bucketSum {G : Type} [AddCommMonoid G]
    (c i b : Nat) (pairs : List (Nat × G)) : G :=
  ((pairs.filter (fun sp => windowDigit c i sp.1 == b)).map Prod.snd).sum

/-- Modelled from the spec: the contribution of window `i` in the bucket
method, `Σ_{b=1}^{2^c - 1} b • bucket_b`. -/
def windowSum {G : Type} [AddCommMonoid G]
    (c i : Nat) (pairs : List (Nat × G)) : G :=
  Finset.sum (Finset.Ico 1 (2 ^ c)) (fun b => b • bucketSum c i b pairs)

/-- Modelled from the spec: the optimized multi-scalar multiplication
`cpu_best_msm` (windowed/bucket method), with window width `c` bits and
`w` windows: the window sums are combined with weights `2 ^ (c * i)`. -/
def cpu_best_msm {G : Type} [AddCommMonoid G]
    (c w : Nat) (scalars : List Nat) (points : List G) : G :=
  Finset.sum (Finset.range w)
    (fun i => 2 ^ (c * i) • windowSum c i (scalars.zip points))

/- ------------------------------------------------------------------ -/
/- Engine descriptors and the curve cycle (src/provider/mod.rs)       -/
/- ------------------------------------------------------------------ -/

/-- Modelled from the spec: the two prime fields of the bn256/grumpkin
curve cycle, defined in `src/provider/bn256_grumpkin.rs` (not included)
over the external curve library. `fpBN` is bn256's base field, which is
also grumpkin's scalar field; `frBN` is bn256's scalar field, which is
also grumpkin's base field. -/
inductive FieldId
  | fpBN
  | frBN

deriving instance DecidableEq, Repr for FieldId

/-- bn256's base field (`bn256::Base`). -/
def bn256Base : FieldId := .fpBN

/-- bn256's scalar field (`bn256::Scalar`). -/
def bn256Scalar : FieldId := .frBN

/-- grumpkin's base field (`grumpkin::Base`). -/
def grumpkinBase : FieldId := .frBN

/-- grumpkin's scalar field (`grumpkin::Scalar`). -/
def grumpkinScalar : FieldId := .fpBN

/-- The groups used by the engine configurations in
`src/provider/mod.rs`. -/
inductive GroupId
  | bn256Point
  | grumpkinPoint

deriving instance DecidableEq, Repr for GroupId

/-- The four named engine configurations declared in
`src/provider/mod.rs`. -/
inductive EngineId
  | grumpkinEngine
  | bn256EngineIPA
  | bn256EngineZM
  | bn256EngineKZG

deriving instance DecidableEq, Repr, Fintype for EngineId

/-- Random-oracle types: `PoseidonRO<Base, Scalar>`. -/
inductive ROId
  | poseidonRO (base scalar : FieldId)

deriving instance DecidableEq, Repr for ROId

/-- In-circuit random-oracle types: `PoseidonROCircuit<Base>`. -/
inductive ROCircuitId
  | poseidonROCircuit (base : FieldId)

deriving instance DecidableEq, Repr for ROCircuitId

/-- Transcript types: `Keccak256Transcript<Self>`, parameterized by the
engine configuration it is instantiated at. -/
inductive TEId
  | keccak256Transcript (engine : EngineId)

deriving instance DecidableEq, Repr for TEId

/-- The pairing engines available for KZG-style commitments. -/
inductive PairingId
  | bn256Pairing

deriving instance DecidableEq, Repr for PairingId

/-- Commitment-engine types bound by the configurations in
`src/provider/mod.rs`: `PedersenCommitmentEngine<Self>` (discrete-log,
parameterized by the engine) and `KZGCommitmentEngine<Bn256>`
(parameterized by the pairing engine). -/
inductive CEId
  | pedersenCommitmentEngine (engine : EngineId)
  | kzgCommitmentEngine (pairing : PairingId)

deriving instance DecidableEq, Repr for CEId

/-- The bundle of associated types fixed by one `impl Engine for ...`
block in `src/provider/mod.rs`. -/
structure EngineImpl where
  Base : FieldId
  Scalar : FieldId
  GE : GroupId
  RO : ROId
  ROCircuit : ROCircuitId
  TE : TEId
  CE : CEId

deriving instance DecidableEq, Repr for EngineImpl

/-- The four `impl Engine for ...` blocks of `src/provider/mod.rs`,
transcribed line by line. -/
def engineOf : EngineId → EngineImpl
  | .grumpkinEngine =>
      { Base := grumpkinBase
        Scalar := grumpkinScalar
        GE := .grumpkinPoint
        RO := .poseidonRO grumpkinBase grumpkinScalar
        ROCircuit := .poseidonROCircuit grumpkinBase
        TE := .keccak256Transcript .grumpkinEngine
        CE := .pedersenCommitmentEngine .grumpkinEngine }
  | .bn256EngineIPA =>
      { Base := bn256Base
        Scalar := bn256Scalar
        GE := .bn256Point
        RO := .poseidonRO bn256Base bn256Scalar
        ROCircuit := .poseidonROCircuit bn256Base
        TE := .keccak256Transcript .bn256EngineIPA
        CE := .pedersenCommitmentEngine .bn256EngineIPA }
  | .bn256EngineZM =>
      { Base := bn256Base
        Scalar := bn256Scalar
        GE := .bn256Point
        RO := .poseidonRO bn256Base bn256Scalar
        ROCircuit := .poseidonROCircuit bn256Base
        TE := .keccak256Transcript .bn256EngineZM
        CE := .kzgCommitmentEngine .bn256Pairing }
  | .bn256EngineKZG =>
      { Base := bn256Base
        Scalar := bn256Scalar
        GE := .bn256Point
        RO := .poseidonRO bn256Base bn256Scalar
        ROCircuit := .poseidonROCircuit bn256Base
        TE := .keccak256Transcript .bn256EngineKZG
        CE := .kzgCommitmentEngine .bn256Pairing }

/-- The three `impl CurveCycleEquipped for ...` blocks of
`src/provider/mod.rs`: the designated secondary configuration, when one
is declared. `GrumpkinEngine` has no such impl. -/
def secondaryOf : EngineId → Option EngineId
  | .grumpkinEngine => none
  | .bn256EngineIPA => some .grumpkinEngine
  | .bn256EngineZM => some .grumpkinEngine
  | .bn256EngineKZG => some .grumpkinEngine

/- ------------------------------------------------------------------ -/
/- Commitment-key derivation (section 4.2 of the spec)                -/
/- ------------------------------------------------------------------ -/

/-- A sequential reader over the Shake256 extendable-output stream of a
label. The Keccak permutation itself is external library code, so the
stream is abstracted as a function from byte position to byte value;
the reader tracks its current position, as the `reader` returned by
`finalize_xof` does in `from_label_serial` of `src/provider/mod.rs`. -/
structure XofReader where
  stream : Nat → Nat
  pos : Nat

/-- `read_exact` on a `k`-byte buffer: return the next `k` bytes of the
stream and the advanced reader. -/
def readExact (r : XofReader) (k : Nat) : List Nat × XofReader :=
  ((List.range k).map (fun j => r.stream (r.pos + j)), ⟨r.stream, r.pos + k⟩)

/-- The loop body of `from_label_serial` in `src/provider/mod.rs`: read
32 uniform bytes, map them to a curve point with the hash-to-curve map
instantiated at domain tag `"from_uniform_bytes"`, convert to affine,
and continue with the advanced reader. The hash-to-curve map and the
affine conversion are external curve-library code, abstracted as the
parameters `h2c` and `toAff`. -/
def fromLabelGo {P A : Type} (h2c : String → List Nat → P) (toAff : P → A) :
    XofReader → Nat → List A
  | _, 0 => []
  | r, n + 1 =>
      toAff (h2c "from_uniform_bytes" (readExact r 32).1) ::
        fromLabelGo h2c toAff (readExact r 32).2 n

/-- `from_label_serial` from the test module of `src/provider/mod.rs`:
absorb the label into Shake256 (abstracted as `stream`), then read
successive 32-byte chunks and hash each to an affine curve point. -/
def from_label_serial {P A : Type} (h2c : String → List Nat → P)
    (toAff : P → A) (stream : Nat → Nat) (n : Nat) : List A :=
  fromLabelGo h2c toAff ⟨stream, 0⟩ n

/-- Modelled from the spec: one worker of the parallel `from_label`
(`DlogGroup::from_label` in `src/provider/traits.rs`, not included):
the worker re-derives the XOF stream, skips to byte offset `32 * off`,
and produces the `len` points of its index range. -/
def fromLabelChunk {P A : Type} (h2c : String → List Nat → P)
    (toAff : P → A) (stream : Nat → Nat) (off len : Nat) : List A :=
  fromLabelGo h2c toAff ⟨stream, 32 * off⟩ len

/-- Modelled from the spec: the parallel derivation assigns consecutive
disjoint index ranges (of sizes `parts`) to workers and concatenates the
workers' outputs in range order. -/
def fromLabelParts {P A : Type} (h2c : String → List Nat → P)
    (toAff : P → A) (stream : Nat → Nat) : Nat → List Nat → List A
  | _, [] => []
  | off, l :: rest =>
      fromLabelChunk h2c toAff stream off l ++
        fromLabelParts h2c toAff stream (off + l) rest

/-- Modelled from the spec: the parallel `from_label` over a partition
`parts` of the index range `0..n` (so `parts.sum = n`). -/
def from_label {P A : Type} (h2c : String → List Nat → P)
    (toAff : P → A) (stream : Nat → Nat) (parts : List Nat) : List A :=
  fromLabelParts h2c toAff stream 0 parts

/- ------------------------------------------------------------------ -/
/- SNARK capability and error taxonomy                                -/
/- ------------------------------------------------------------------ -/

/-- The dimensions of an R1CS shape. Modelled from the spec: `R1CSShape`
itself lives in `src/r1cs` (not included); the spec describes it as the
fixed matrices/dimensions of a relaxed rank-1 constraint system, and the
claims use only its dimensions. -/
structure R1CSShape where
  num_cons : Nat
  num_vars : Nat
  num_io : Nat

deriving instance DecidableEq for R1CSShape

/-- `default_ck_hint` from `src/traits/snark.rs`: the default is to not
put an additional floor on the size of the commitment key, i.e. the
constant-zero function on shapes. -/
def default_ck_hint : R1CSShape → Nat :=
  fun _shape => 0

/-- The default `ck_floor` of `RelaxedR1CSSNARKTrait` in
`src/traits/snark.rs`: delegates to `default_ck_hint`. -/
def RelaxedR1CSSNARKTrait.ck_floor : R1CSShape → Nat :=
  default_ck_hint

/-- The default `ck_floor` of `BatchedRelaxedR1CSSNARKTrait` in
`src/traits/snark.rs`: delegates to `default_ck_hint`. -/
def BatchedRelaxedR1CSSNARKTrait.ck_floor : R1CSShape → Nat :=
  default_ck_hint

/-- Modelled from the spec: the base error type `NovaError`
(`src/errors.rs`, not included) covers failures of constraint-system
validation, commitment opening, and proof verification below this
layer. -/
inductive NovaError
  | unSat
  | invalidCommitmentKey
  | proofVerifyError

deriving instance DecidableEq for NovaError

/-- `SuperNovaError` from `src/supernova/error.rs`: a wrapped base
error, a missing commitment key, or an unsatisfied sub-instance named
by a string and a batch index. -/
inductive SuperNovaError
  | novaError (e : NovaError)
  | missingCK
  | unSatIndex (name : String) (index : Nat)

deriving instance DecidableEq for SuperNovaError

/-- The `From<NovaError>` conversion generated by the `#[from]`
attribute on the `NovaError` variant in `src/supernova/error.rs`. -/
def SuperNovaError.fromNova (e : NovaError) : SuperNovaError :=
  .novaError e

/-- A commitment key: an ordered sequence of group elements, as in the
data model of the spec. -/
structure CommitmentKey (G : Type) where
  gens : List G

/-- Modelled from the spec: the deterministic serialization of a shape
used by the verifier-key fingerprint. -/
def R1CSShape.encode (S : R1CSShape) : List Nat :=
  [S.num_cons, S.num_vars, S.num_io]

/-- Modelled from the spec: a canonical content fingerprint of a
serialized byte/limb sequence, folded into a 64-bit accumulator. -/
def fingerprint (data : List Nat) : Nat :=
  data.foldl (fun acc b => (acc * 257 + b) % 2 ^ 64) 5381

/-- Modelled from the spec: the prover key derived by `setup` from an
already-produced commitment key and shape. -/
structure ProverKey where
  shape : R1CSShape
  ckLen : Nat

deriving instance DecidableEq for ProverKey

/-- Modelled from the spec: the verifier key derived by `setup`,
carrying the digest — a canonical content fingerprint of the
(commitment key, shape) parameters (an element of the engine's scalar
field, represented here by its natural-number representative). -/
structure VerifierKey where
  shape : R1CSShape
  ckLen : Nat
  digest : Nat

deriving instance DecidableEq for VerifierKey

/-- The commitment-key length `setup` requires:
`max(shape.num_vars, shape.num_constraints, ck_floor(shape))`. -/
def ckRequired (floor : R1CSShape → Nat) (S : R1CSShape) : Nat :=
  max (max S.num_vars S.num_cons) (floor S)

/-- Modelled from the spec: `setup` (whose SuperNova implementation is
not included; `src/traits/snark.rs` declares the trait and
`src/supernova/error.rs` its error) fails with the
missing/undersized-commitment-key error when the supplied key is
smaller than `max(shape.num_vars, shape.num_constraints,
ck_floor(shape))`, and otherwise derives the (ProverKey, VerifierKey)
pair from the key and shape without re-deriving generators. -/
def SuperNova.setup {G : Type} (floor : R1CSShape → Nat)
    (ck : CommitmentKey G) (S : R1CSShape) :
    Except SuperNovaError (ProverKey × VerifierKey) :=
  if ck.gens.length < ckRequired floor S then
    .error .missingCK
  else
    .ok (⟨S, ck.gens.length⟩,
         ⟨S, ck.gens.length, fingerprint (S.encode ++ [ck.gens.length])⟩)

/- ------------------------------------------------------------------ -/
/- Theorems: multi-scalar multiplication                              -/
/- ------------------------------------------------------------------ -/

theorem foldl_add_smul {G : Type} [AddCommMonoid G]
    (l : List (Nat × G)) (a : G) :
    l.foldl (fun acc sp => acc + sp.1 • sp.2) a
      = a + (l.map fun sp => sp.1 • sp.2).sum := by
  induction l generalizing a with
  | nil => simp
  | cons sp l ih => simp [ih, add_assoc]

theorem bucketSum_nil {G : Type} [AddCommMonoid G] (c i b : Nat) :
    bucketSum c i b ([] : List (Nat × G)) = 0 := rfl

theorem bucketSum_cons {G : Type} [AddCommMonoid G]
    (c i b : Nat) (sp : Nat × G) (ps : List (Nat × G)) :
    bucketSum c i b (sp :: ps)
      = (if windowDigit c i sp.1 = b then sp.2 else 0) + bucketSum c i b ps := by
  by_cases h : windowDigit c i sp.1 = b
  · simp [bucketSum, List.filter_cons, h]
  · simp [bucketSum, List.filter_cons, h]

theorem windowDigit_lt (c i s : Nat) : windowDigit c i s < 2 ^ c :=
  Nat.mod_lt _ (Nat.pos_pow_of_pos c (by omega))

theorem windowSum_nil {G : Type} [AddCommMonoid G] (c i : Nat) :
    windowSum c i ([] : List (Nat × G)) = 0 := by
  simp [windowSum, bucketSum_nil]

theorem windowSum_cons {G : Type} [AddCommMonoid G]
    (c i : Nat) (sp : Nat × G) (ps : List (Nat × G)) :
    windowSum c i (sp :: ps)
      = windowDigit c i sp.1 • sp.2 + windowSum c i ps := by
  unfold windowSum
  have h1 : Finset.sum (Finset.Ico 1 (2 ^ c))
        (fun b => b • bucketSum c i b (sp :: ps))
      = Finset.sum (Finset.Ico 1 (2 ^ c))
          (fun b => (if windowDigit c i sp.1 = b then b • sp.2 else 0)
            + b • bucketSum c i b ps) := by
    refine Finset.sum_congr rfl (fun b _ => ?_)
    rw [bucketSum_cons, smul_add]
    by_cases h : windowDigit c i sp.1 = b <;> simp [h]
  rw [h1, Finset.sum_add_distrib, Finset.sum_ite_eq]
  have h2 : (if windowDigit c i sp.1 ∈ Finset.Ico 1 (2 ^ c)
        then windowDigit c i sp.1 • sp.2 else 0)
      = windowDigit c i sp.1 • sp.2 := by
    rcases Nat.eq_zero_or_pos (windowDigit c i sp.1) with h0 | h0
    · simp [h0, Finset.mem_Ico]
    · rw [if_pos (Finset.mem_Ico.mpr ⟨h0, windowDigit_lt c i sp.1⟩)]
  rw [h2]

theorem nat_mod_mul_decompose (n m k : Nat) :
    n % (m * k) = n % m + m * (n / m % k) := by
  conv_lhs => rw [← Nat.div_add_mod (n % (m * k)) m]
  rw [Nat.mod_mul_right_div_self, Nat.mod_mod_of_dvd _ (dvd_mul_right m k),
    Nat.add_comm]

theorem sum_windowDigit (c s : Nat) :
    ∀ w : Nat, Finset.sum (Finset.range w)
        (fun i => 2 ^ (c * i) * windowDigit c i s) = s % 2 ^ (c * w) := by
  intro w
  induction w with
  | zero => simp [Nat.mod_one]
  | succ w ih =>
      rw [Finset.sum_range_succ, ih]
      have hp : 2 ^ (c * (w + 1)) = 2 ^ (c * w) * 2 ^ c := by
        rw [Nat.mul_succ, pow_add]
      rw [hp, nat_mod_mul_decompose]
      rfl

theorem windows_eq_sum_map {G : Type} [AddCommMonoid G]
    (c w : Nat) (ps : List (Nat × G))
    (hb : ∀ sp ∈ ps, sp.1 < 2 ^ (c * w)) :
    Finset.sum (Finset.range w) (fun i => 2 ^ (c * i) • windowSum c i ps)
      = (ps.map fun sp => sp.1 • sp.2).sum := by
  induction ps with
  | nil => simp [windowSum_nil]
  | cons sp ps ih =>
      have hsp : sp.1 < 2 ^ (c * w) := hb sp (List.mem_cons_self sp ps)
      have hrest : ∀ q ∈ ps, q.1 < 2 ^ (c * w) :=
        fun q hq => hb q (List.mem_cons_of_mem sp hq)
      have h1 : Finset.sum (Finset.range w)
            (fun i => 2 ^ (c * i) • windowSum c i (sp :: ps))
          = Finset.sum (Finset.range w)
              (fun i => (2 ^ (c * i) * windowDigit c i sp.1) • sp.2
                + 2 ^ (c * i) • windowSum c i ps) := by
        refine Finset.sum_congr rfl (fun i _ => ?_)
        rw [windowSum_cons, smul_add, smul_smul]
      rw [h1, Finset.sum_add_distrib, ← Finset.sum_smul, sum_windowDigit,
        Nat.mod_eq_of_lt hsp, ih hrest]
      simp

/-- C1: for every pair of equal-length scalar/point vectors whose
scalars fit in the `w` windows of `c` bits each, the windowed bucket
MSM `cpu_best_msm` returns exactly the result of the naive
accumulate-and-add loop, and on empty input it returns the group
identity. -/
theorem cpu_best_msm_eq_naive {G : Type} [AddCommMonoid G]
    (c w : Nat) (scalars : List Nat) (points : List G)
    (hlen : scalars.length = points.length)
    (hb : ∀ s ∈ scalars, s < 2 ^ (c * w)) :
    cpu_best_msm c w scalars points = naiveAccumulate scalars points ∧
    (scalars = [] → cpu_best_msm c w scalars points = 0) := by
  have hzip : ∀ sp ∈ scalars.zip points, sp.1 < 2 ^ (c * w) := by
    intro sp hsp
    exact hb sp.1 (List.of_mem_zip hsp).1
  constructor
  · rw [cpu_best_msm, naiveAccumulate, windows_eq_sum_map c w _ hzip,
      foldl_add_smul, zero_add]
  · intro h
    subst h
    simp [cpu_best_msm, windowSum_nil]

/-- Witness for C1 at `c = 2`, `w = 3`, scalars `[5, 7]`, points
`[2, 3]` in the additive group of integers. -/
theorem cpu_best_msm_eq_naive_witness :
    cpu_best_msm 2 3 [5, 7] ([2, 3] : List Int)
        = naiveAccumulate [5, 7] ([2, 3] : List Int) ∧
    ([5, 7] = ([] : List Nat) →
      cpu_best_msm 2 3 [5, 7] ([2, 3] : List Int) = 0) :=
  cpu_best_msm_eq_naive 2 3 [5, 7] [2, 3] (by decide) (by decide)

/- ------------------------------------------------------------------ -/
/- Theorems: engine descriptors and the curve cycle                   -/
/- ------------------------------------------------------------------ -/

/-- C2: for every curve-cycle-equipped configuration, the scalar field
of the designated secondary equals the base field of the primary; the
three equipped configurations Bn256EngineIPA, Bn256EngineKZG and
Bn256EngineZM each designate GrumpkinEngine as secondary, and
grumpkin's scalar field is bn256's base field. -/
theorem curveCycle_secondary_scalar_eq_primary_base :
    (∀ e s : EngineId, secondaryOf e = some s →
      (engineOf s).Scalar = (engineOf e).Base) ∧
    secondaryOf .bn256EngineIPA = some .grumpkinEngine ∧
    secondaryOf .bn256EngineKZG = some .grumpkinEngine ∧
    secondaryOf .bn256EngineZM = some .grumpkinEngine ∧
    grumpkinScalar = bn256Base := by
  decide

/-- C5 counterexample: the commitment-engine types of the three
curve-cycle-equipped BN256 engines are not pairwise distinct —
Bn256EngineZM and Bn256EngineKZG both bind `KZGCommitmentEngine<Bn256>`
as their commitment engine. -/
theorem bn256_ce_not_pairwise_distinct :
    ¬ ((engineOf EngineId.bn256EngineIPA).CE ≠ (engineOf EngineId.bn256EngineZM).CE ∧
       (engineOf EngineId.bn256EngineIPA).CE ≠ (engineOf EngineId.bn256EngineKZG).CE ∧
       (engineOf EngineId.bn256EngineZM).CE ≠ (engineOf EngineId.bn256EngineKZG).CE) := by
  decide

/-- C5 (amended): exactly four named engine configurations exist; the
three curve-cycle-equipped BN256 engines share the secondary
GrumpkinEngine; the discrete-log configuration's commitment engine
(Pedersen) differs from that of each polynomial-commitment
configuration, while the two polynomial-commitment configurations bind
the same commitment-engine type `KZGCommitmentEngine<Bn256>`. -/
theorem bn256_engines_commitment_choice :
    Fintype.card EngineId = 4 ∧
    secondaryOf .bn256EngineIPA = some .grumpkinEngine ∧
    secondaryOf .bn256EngineZM = some .grumpkinEngine ∧
    secondaryOf .bn256EngineKZG = some .grumpkinEngine ∧
    (engineOf .bn256EngineIPA).CE = .pedersenCommitmentEngine .bn256EngineIPA ∧
    (engineOf .bn256EngineZM).CE = .kzgCommitmentEngine .bn256Pairing ∧
    (engineOf .bn256EngineKZG).CE = .kzgCommitmentEngine .bn256Pairing ∧
    (engineOf .bn256EngineIPA).CE ≠ (engineOf .bn256EngineZM).CE ∧
    (engineOf .bn256EngineIPA).CE ≠ (engineOf .bn256EngineKZG).CE ∧
    (engineOf .bn256EngineZM).CE = (engineOf .bn256EngineKZG).CE := by
  decide

/-- C10 counterexample: the two polynomial-commitment configurations
are not identical in all seven associated types — their transcript
types are `Keccak256Transcript<Bn256EngineZM>` and
`Keccak256Transcript<Bn256EngineKZG>`, distinct instantiations of
`Keccak256Transcript<Self>`. -/
theorem zm_kzg_not_identical :
    ¬ engineOf EngineId.bn256EngineZM = engineOf EngineId.bn256EngineKZG := by
  decide

/-- C10 (amended): Bn256EngineZM and Bn256EngineKZG agree in six of the
seven associated types — Base, Scalar, GE, RO, ROCircuit, and CE (both
`KZGCommitmentEngine<Bn256>`) — and in their secondary configuration
(GrumpkinEngine); their TE is `Keccak256Transcript<Self>` in both
impls, which instantiates to types differing only in the `Self`
parameter. -/
theorem zm_kzg_agree_except_te :
    (engineOf .bn256EngineZM).Base = (engineOf .bn256EngineKZG).Base ∧
    (engineOf .bn256EngineZM).Scalar = (engineOf .bn256EngineKZG).Scalar ∧
    (engineOf .bn256EngineZM).GE = (engineOf .bn256EngineKZG).GE ∧
    (engineOf .bn256EngineZM).RO = (engineOf .bn256EngineKZG).RO ∧
    (engineOf .bn256EngineZM).ROCircuit = (engineOf .bn256EngineKZG).ROCircuit ∧
    (engineOf .bn256EngineZM).CE = (engineOf .bn256EngineKZG).CE ∧
    (engineOf .bn256EngineZM).CE = .kzgCommitmentEngine .bn256Pairing ∧
    secondaryOf .bn256EngineZM = secondaryOf .bn256EngineKZG ∧
    secondaryOf .bn256EngineZM = some .grumpkinEngine ∧
    (engineOf .bn256EngineZM).TE = .keccak256Transcript .bn256EngineZM ∧
    (engineOf .bn256EngineKZG).TE = .keccak256Transcript .bn256EngineKZG := by
  decide

/- ------------------------------------------------------------------ -/
/- Theorems: SNARK capability and errors                              -/
/- ------------------------------------------------------------------ -/

/-- C6: the default floor hint is the constant-zero function — applied
to any shape, `default_ck_hint` and the default `ck_floor` of both the
single and the batched SNARK trait return 0. -/
theorem default_ck_hint_eq_zero :
    ∀ S : R1CSShape,
      default_ck_hint S = 0 ∧
      RelaxedR1CSSNARKTrait.ck_floor S = 0 ∧
      BatchedRelaxedR1CSSNARKTrait.ck_floor S = 0 :=
  fun _ => ⟨rfl, rfl, rfl⟩

/-- C4: `setup` fails with the missing/undersized-commitment-key error
exactly when the supplied key's length is below
`max(shape.num_vars, shape.num_constraints, ck_floor(shape))`, and
otherwise returns a (ProverKey, VerifierKey) pair. -/
theorem setup_missingCK_iff {G : Type} (floor : R1CSShape → Nat)
    (ck : CommitmentKey G) (S : R1CSShape) :
    (SuperNova.setup floor ck S = .error .missingCK ↔
      ck.gens.length < max (max S.num_vars S.num_cons) (floor S)) ∧
    (¬ ck.gens.length < max (max S.num_vars S.num_cons) (floor S) →
      ∃ pk vk, SuperNova.setup floor ck S = .ok (pk, vk)) := by
  by_cases h : ck.gens.length < max (max S.num_vars S.num_cons) (floor S)
  · refine ⟨⟨fun _ => h, fun _ => ?_⟩, fun hc => absurd h hc⟩
    simp [SuperNova.setup, ckRequired, h]
  · refine ⟨⟨fun he => ?_, fun hc => absurd hc h⟩, fun _ =>
      ⟨⟨S, ck.gens.length⟩,
        ⟨S, ck.gens.length, fingerprint (S.encode ++ [ck.gens.length])⟩,
        by simp [SuperNova.setup, ckRequired, h]⟩⟩
    simp [SuperNova.setup, ckRequired, h] at he

/-- C7: digest computation is deterministic — two `setup` runs over
equal (commitment key, shape) inputs that both succeed produce verifier
keys with equal digests. -/
theorem digest_deterministic {G : Type} (floor : R1CSShape → Nat)
    (ck1 ck2 : CommitmentKey G) (S1 S2 : R1CSShape)
    (pk1 pk2 : ProverKey) (vk1 vk2 : VerifierKey)
    (hck : ck1 = ck2) (hS : S1 = S2)
    (h1 : SuperNova.setup floor ck1 S1 = .ok (pk1, vk1))
    (h2 : SuperNova.setup floor ck2 S2 = .ok (pk2, vk2)) :
    vk1.digest = vk2.digest := by
  subst hck
  subst hS
  rw [h1] at h2
  simp only [Except.ok.injEq, Prod.mk.injEq] at h2
  rw [h2.2]

/-- Witness for C7: two runs of `setup` on the key of two unit
generators and the shape (1 constraint, 2 variables, 0 io) yield the
same digest. -/
theorem digest_deterministic_witness :
    (VerifierKey.mk ⟨1, 2, 0⟩ 2 (fingerprint [1, 2, 0, 2])).digest
      = (VerifierKey.mk ⟨1, 2, 0⟩ 2 (fingerprint [1, 2, 0, 2])).digest :=
  digest_deterministic (fun _ => 0) ⟨[(), ()]⟩ ⟨[(), ()]⟩ ⟨1, 2, 0⟩ ⟨1, 2, 0⟩
    ⟨⟨1, 2, 0⟩, 2⟩ ⟨⟨1, 2, 0⟩, 2⟩
    ⟨⟨1, 2, 0⟩, 2, fingerprint [1, 2, 0, 2]⟩
    ⟨⟨1, 2, 0⟩, 2, fingerprint [1, 2, 0, 2]⟩
    rfl rfl rfl rfl

/-- C8: every `SuperNovaError` is exactly one of the three tagged
cases — a wrapped base error, the missing-commitment-key signal, or an
unsatisfied sub-instance named by a string and a batch index — and the
`From<NovaError>` conversion wraps the base error unchanged and
injectively. -/
theorem superNovaError_taxonomy :
    (∀ err : SuperNovaError,
      (∃ e, err = .novaError e) ∨ err = .missingCK ∨
        ∃ name i, err = .unSatIndex name i) ∧
    (∀ e : NovaError, SuperNovaError.fromNova e = .novaError e) ∧
    (∀ e e' : NovaError,
      SuperNovaError.fromNova e = SuperNovaError.fromNova e' → e = e') := by
  refine ⟨fun err => ?_, fun e => rfl, fun e e' h => ?_⟩
  · cases err with
    | novaError e => exact Or.inl ⟨e, rfl⟩
    | missingCK => exact Or.inr (Or.inl rfl)
    | unSatIndex n i => exact Or.inr (Or.inr ⟨n, i, rfl⟩)
  · simpa [SuperNovaError.fromNova] using h

/- ------------------------------------------------------------------ -/
/- Theorems: commitment-key derivation                                -/
/- ------------------------------------------------------------------ -/

theorem fromLabelGo_length {P A : Type} (h2c : String → List Nat → P)
    (toAff : P → A) :
    ∀ (n : Nat) (r : XofReader), (fromLabelGo h2c toAff r n).length = n := by
  intro n
  induction n with
  | zero => intro r; rfl
  | succ n ih => intro r; simp [fromLabelGo, ih]

theorem fromLabelGo_add {P A : Type} (h2c : String → List Nat → P)
    (toAff : P → A) (s : Nat → Nat) :
    ∀ (a b p : Nat),
      fromLabelGo h2c toAff ⟨s, p⟩ (a + b)
        = fromLabelGo h2c toAff ⟨s, p⟩ a
            ++ fromLabelGo h2c toAff ⟨s, p + 32 * a⟩ b := by
  intro a
  induction a with
  | zero => intro b p; simp [fromLabelGo]
  | succ a ih =>
      intro b p
      have hsa : a + 1 + b = (a + b) + 1 := by omega
      rw [hsa]
      show toAff (h2c "from_uniform_bytes" (readExact ⟨s, p⟩ 32).1) ::
          fromLabelGo h2c toAff (readExact ⟨s, p⟩ 32).2 (a + b)
        = (toAff (h2c "from_uniform_bytes" (readExact ⟨s, p⟩ 32).1) ::
            fromLabelGo h2c toAff (readExact ⟨s, p⟩ 32).2 a)
          ++ fromLabelGo h2c toAff ⟨s, p + 32 * (a + 1)⟩ b
      have hr : (readExact ⟨s, p⟩ 32).2 = XofReader.mk s (p + 32) := rfl
      rw [List.cons_append, hr, ih b (p + 32)]
      have harith : p + 32 + 32 * a = p + 32 * (a + 1) := by omega
      rw [harith]

theorem fromLabelParts_eq_go {P A : Type} (h2c : String → List Nat → P)
    (toAff : P → A) (s : Nat → Nat) :
    ∀ (parts : List Nat) (off : Nat),
      fromLabelParts h2c toAff s off parts
        = fromLabelGo h2c toAff ⟨s, 32 * off⟩ parts.sum := by
  intro parts
  induction parts with
  | nil => intro off; rfl
  | cons l rest ih =>
      intro off
      show fromLabelChunk h2c toAff s off l
          ++ fromLabelParts h2c toAff s (off + l) rest
        = fromLabelGo h2c toAff ⟨s, 32 * off⟩ (l + rest.sum)
      rw [fromLabelGo_add h2c toAff s l rest.sum (32 * off), ih (off + l)]
      have harith : 32 * off + 32 * l = 32 * (off + l) := by omega
      rw [fromLabelChunk, harith]

/-- C3: commitment-key derivation is partition-independent — for any
XOF stream (in particular the Shake256 stream of the label
`"test_from_label"`) and any count n, the parallel derivation over any
partition of the index range into worker chunks equals the serial
derivation that reads the stream sequentially, and its length is n. -/
theorem from_label_parallel_eq_serial {P A : Type}
    (h2c : String → List Nat → P) (toAff : P → A) (stream : Nat → Nat)
    (parts : List Nat) (n : Nat) (hn : parts.sum = n) :
    from_label h2c toAff stream parts
        = from_label_serial h2c toAff stream n ∧
    (from_label h2c toAff stream parts).length = n := by
  have hmain : from_label h2c toAff stream parts
      = from_label_serial h2c toAff stream n := by
    rw [from_label, fromLabelParts_eq_go h2c toAff stream parts 0, hn]
    rfl
  exact ⟨hmain, by rw [hmain, from_label_serial, fromLabelGo_length]⟩

/-- Witness for C3: a two-worker partition `[2, 3]` of `n = 5` yields
the serial sequence of length 5, on a concrete stream and a concrete
hash-to-curve map. -/
theorem from_label_parallel_eq_serial_witness :
    from_label (fun tag bytes => (tag, bytes))
        (id : String × List Nat → String × List Nat)
        (fun k => k % 251) [2, 3]
      = from_label_serial (fun tag bytes => (tag, bytes))
          (id : String × List Nat → String × List Nat)
          (fun k => k % 251) 5 ∧
    (from_label (fun tag bytes => (tag, bytes))
        (id : String × List Nat → String × List Nat)
        (fun k => k % 251) [2, 3]).length = 5 :=
  from_label_parallel_eq_serial (fun tag bytes => (tag, bytes))
    (id : String × List Nat → String × List Nat)
    (fun k => k % 251) [2, 3] 5 (by decide)

theorem fromLabelGo_getElem {P A : Type} (h2c : String → List Nat → P)
    (toAff : P → A) (s : Nat → Nat) :
    ∀ (n p i : Nat), i < n →
      (fromLabelGo h2c toAff ⟨s, p⟩ n)[i]? =
        some (toAff (h2c "from_uniform_bytes"
          ((List.range 32).map fun j => s (p + 32 * i + j)))) := by
  intro n
  induction n with
  | zero => intro p i h; omega
  | succ n ih =>
      intro p i hi
      cases i with
      | zero => simp [fromLabelGo, readExact]
      | succ i =>
          have hr : (readExact ⟨s, p⟩ 32).2 = XofReader.mk s (p + 32) := rfl
          rw [show fromLabelGo h2c toAff ⟨s, p⟩ (n + 1)
              = toAff (h2c "from_uniform_bytes" (readExact ⟨s, p⟩ 32).1) ::
                  fromLabelGo h2c toAff (readExact ⟨s, p⟩ 32).2 n from rfl,
            hr]
          rw [List.getElem?_cons_succ, ih (p + 32) i (by omega)]
          have harith : p + 32 + 32 * i = p + 32 * (i + 1) := by omega
          rw [harith]

/-- C9: the serial key derivation reads the XOF stream of the label in
successive 32-byte chunks and maps the i-th chunk through the
hash-to-curve map at domain tag `"from_uniform_bytes"`, converted to
affine form: the output has length n and its i-th element (i < n) is
exactly the image of bytes `32 i .. 32 i + 31` of the stream. -/
theorem from_label_serial_hash_chunks {P A : Type}
    (h2c : String → List Nat → P) (toAff : P → A) (stream : Nat → Nat)
    (n : Nat) :
    (from_label_serial h2c toAff stream n).length = n ∧
    ∀ i, i < n →
      (from_label_serial h2c toAff stream n)[i]? =
        some (toAff (h2c "from_uniform_bytes"
          ((List.range 32).map fun j => stream (32 * i + j)))) := by
  refine ⟨fromLabelGo_length h2c toAff n ⟨stream, 0⟩, fun i hi => ?_⟩
  rw [from_label_serial, fromLabelGo_getElem h2c toAff stream n 0 i hi]
  simp
